import Mathlib

/-!
# A shallow embedding of the rlox tree-walking interpreter core

This file embeds the data model and operations of the rlox interpreter
(`src/compiler/{env.rs, interpreter.rs, lox_function.rs, resolver.rs,
control_flow.rs, expr.rs, stmt.rs, error.rs}`) as executable Lean
definitions, and settles the specification claims C1..C10 against them.

Modelling conventions, stated once here:

* Rust `f64` numbers are modelled as `Int`.  Every numeric computation
  appearing in the claims (integer factorials, small sums/products,
  comparisons on small integers, display of whole numbers) is exact on
  `f64`, so no claim exercises float-specific behaviour.
* Rust `HashMap<String, _>` is modelled as an association list with
  insert-replaces semantics (`insertA` below); names are unique within
  one map and last write wins, exactly as for the HashMap.
* The shared-ownership environment graph (`Rc<RefCell<Env>>`) is
  modelled as a heap: a list of `EnvData` records addressed by index,
  held in an explicit interpreter `State`.  `Env::new_enclosed` appends
  a record whose `enclosing` field points at an existing index, so in
  every state produced by execution each enclosing link points to a
  strictly smaller index (`WFEnvs` below).
* Fallible / stateful code is modelled by explicit state passing: every
  evaluation function takes a `State` and returns the updated `State`
  together with a result.  The state is returned on the error path as
  well, mirroring the fact that the Rust interpreter's `RefCell` state
  survives `?`-propagation of a `LoxError`.
* General recursion (while loops, user function calls) is made total
  with an explicit fuel parameter that is decremented at every node;
  running out of fuel is a distinct outcome (`Res.oof`), never
  identified with a Lox error.
* `Rc::ptr_eq` on function objects is modelled by tagging each function
  object created by `visit_function` with a fresh numeric id drawn from
  a counter in the state; two function values are equal iff their ids
  coincide, which matches pointer identity because every evaluation of a
  function declaration allocates a fresh `Rc`.
-/

namespace Rlox

/-- Association-list lookup, modelling `HashMap::get`. -/
def lookupA (m : List (String × α)) (k : String) : Option α :=
  match m with
  | [] => none
  | (k', v) :: rest => if k' = k then some v else lookupA rest k

/-- Association-list insert-or-replace, modelling `HashMap::insert`
(names unique within one map, last write wins). -/
def insertA (m : List (String × α)) (k : String) (v : α) : List (String × α) :=
  match m with
  | [] => [(k, v)]
  | (k', v') :: rest =>
      if k' = k then (k, v) :: rest else (k', v') :: insertA rest k v

/-- Association-list membership, modelling `HashMap::contains_key`. -/
def containsA (m : List (String × α)) (k : String) : Bool :=
  match m with
  | [] => false
  | (k', _) :: rest => k' = k || containsA rest k

/-- The token types the core dispatches on (`token.rs` / the operator
matches in `interpreter.rs`).  Only the variants the evaluator and
resolver inspect are listed; `EOF` stands in for the dummy tokens the
source fabricates. -/
inductive TokType where
  | MINUS | PLUS | SLASH | STAR
  | GREATER | GREATER_EQUAL | LESS | LESS_EQUAL
  | EQUAL_EQUAL | BANG_EQUAL
  | BANG | OR | AND | RETURN | EOF
deriving DecidableEq, Repr

/-- Literal payloads (`expr.rs` `Literal { value: Object }`).  The parser
only ever stores `Nil`, `Boolean`, `Number`, `String` (and the quirky
`Error` variant) in a literal, never a `Function`, so the literal payload
is modelled by this first-order subset of `Object`; `visit_literal`'s
unreachable `Function` arm is thereby omitted. -/
inductive Lit where
  | nil
  | boolean (b : Bool)
  | number (n : Int)
  | str (s : String)
  | errV (msg : String)
deriving DecidableEq, Repr

mutual
/-- Expression AST (`expr.rs` `enum Expr`).  Tokens are reduced to the
data the core reads from them: the operator's `TokenType` and a
variable's lexeme. -/
inductive Expr where
  | binary (left : Expr) (op : TokType) (right : Expr)
  | grouping (e : Expr)
  | literal (v : Lit)
  | unary (op : TokType) (right : Expr)
  | ternary (cond : Expr) (trueBranch : Expr) (falseBranch : Expr)
  | variable (name : String)
  | assign (name : String) (value : Expr)
  | logical (left : Expr) (op : TokType) (right : Expr)
  | call (callee : Expr) (args : List Expr)
deriving Repr

/-- Statement AST (`stmt.rs` `enum Stmt`).  `Class` is reserved and
unimplemented in the interpreter (no `visit_class` impl) and excluded by
the spec, so it is omitted. -/
inductive Stmt where
  | expression (e : Expr)
  | print (e : Expr)
  | var (name : String) (initializer : Expr)
  | block (statements : List Stmt)
  | ifStmt (cond : Expr) (thenBranch : Stmt) (elseBranch : Option Stmt)
  | whileStmt (cond : Expr) (body : Stmt)
  | function (name : String) (params : List String) (body : Stmt)
  | returnStmt (value : Expr)
deriving Repr
end

/-- Runtime function values (`Object::Function(Rc<dyn LoxCallable>)`).
`lox` is a `LoxFunction` (declaration + captured closure environment id);
`clock` is the single native `ClockFunction` installed by
`Interpreter::new`.  `id` models the `Rc` allocation identity. -/
inductive FnVal where
  | lox (id : Nat) (name : String) (params : List String) (body : Stmt) (closure : Nat)
  | clock
deriving Repr

/-- Runtime values (`expr.rs` `enum Object`). -/
inductive Object where
  | nil
  | boolean (b : Bool)
  | number (n : Int)
  | str (s : String)
  | errV (msg : String)
  | function (f : FnVal)
deriving Repr

/-- Coercion: `Lit` payloads are `Object`s. -/
def Lit.toObject : Lit → Object
  | .nil => .nil
  | .boolean b => .boolean b
  | .number n => .number n
  | .str s => .str s
  | .errV m => .errV m

/-- Models `PartialEq` on `Object` (`expr.rs`): same-variant scalars by value,
functions by `Rc::ptr_eq` (modelled by the allocation id; the single
clock native is one shared `Rc`), everything else `false`. -/
def objEq : Object → Object → Bool
  | .nil, .nil => true
  | .boolean a, .boolean b => a == b
  | .number a, .number b => a == b
  | .str a, .str b => a == b
  | .errV a, .errV b => a == b
  | .function (.lox i _ _ _ _), .function (.lox j _ _ _ _) => i == j
  | .function .clock, .function .clock => true
  | _, _ => false

/-- Error kinds (`error.rs` `enum LoxErrorKind`).  The `warning` kind is
modelled from the spec: the resolver calls `LoxError::new_warning` and the
test driver filters on `LoxErrorKind::Warning`, but both are absent from
`src/error.rs`; spec §4.2/§7 describe the warning diagnostic class. -/
inductive ErrKind where
  | parse
  | runtime
  | internalE
  | warning
deriving DecidableEq, Repr

/-- A `LoxError`, reduced to the parts the claims observe: kind and
message (token/line bookkeeping carries no semantic weight here). -/
structure LoxError where
  kind : ErrKind
  message : String
deriving DecidableEq, Repr

/-- Models `LoxError::new_runtime`. -/
def LoxError.newRuntime (message : String) : LoxError := ⟨.runtime, message⟩

/-- Models `LoxError::new_parse`. -/
def LoxError.newParse (message : String) : LoxError := ⟨.parse, message⟩

/-- Models `LoxError::new_internal`. -/
def LoxError.newInternal (message : String) : LoxError := ⟨.internalE, message⟩

/-- Modelled from the spec: `LoxError::new_warning`, called by the
resolver but missing from `src/error.rs`; spec §7 lists resolution
warnings as a non-fatal diagnostic class. -/
def LoxError.newWarning (message : String) : LoxError := ⟨.warning, message⟩

/-- One environment record (`env.rs` `struct Env`): an optional enclosing
link (a heap index) and the name → value binding map. -/
structure EnvData where
  enclosing : Option Nat
  bindings : List (String × Object)
deriving Repr

/-- Interpreter state: the environment heap (`Rc<RefCell<Env>>` graph),
the "current environment" cursor (`Interpreter.env`), the print sink
(values passed to `println!` by `visit_print`), and the allocation
counter for function-object identity. -/
structure State where
  envs : List EnvData
  current : Nat
  output : List Object
  nextFnId : Nat
deriving Repr

/-- Well-formed heaps: every enclosing link points strictly downward.
`Env::new_enclosed` appends a record whose enclosing is an existing
index, so execution preserves this; chain walks terminate under it. -/
def WFEnvs (st : State) : Prop :=
  ∀ i e, st.envs.get? i = some e → ∀ j, e.enclosing = some j → j < i

/-- Read a heap record. -/
def getEnv (st : State) (id : Nat) : Option EnvData :=
  st.envs.get? id

/-- Replace the heap record at `id` (used to model `borrow_mut` writes). -/
def setEnv (st : State) (id : Nat) (e : EnvData) : State :=
  { st with envs := st.envs.set id e }

/-- Models `Env::define`: unconditional insert/overwrite in the environment
`id` only. -/
def envDefine (st : State) (id : Nat) (name : String) (v : Object) : State :=
  match getEnv st id with
  | none => st
  | some e => setEnv st id { e with bindings := insertA e.bindings name v }

/-- Models `Env::new_enclosed`: allocate a child of `enclosing`; returns the new
state and the fresh id. -/
def newEnclosed (st : State) (enclosing : Nat) : State × Nat :=
  ({ st with envs := st.envs ++ [⟨some enclosing, []⟩] }, st.envs.length)

/-- Chain walk for `Env::get`, by explicit bound on the number of hops
(the public wrapper supplies `id + 1`, which under `WFEnvs` is enough
because each hop strictly decreases the index).  `none` is a miss. -/
def envGetFuel (st : State) : Nat → Nat → String → Option Object
  | 0, _, _ => none
  | fuel + 1, id, name =>
    match getEnv st id with
    | none => none
    | some e =>
      match lookupA e.bindings name with
      | some v => some v
      | none =>
        match e.enclosing with
        | some up => envGetFuel st fuel up name
        | none => none

/-- Models `Env::get(name)`: look up in `id`, on miss recurse into the
enclosing environment; `none` models the `UndefinedVariable` error when
the chain is exhausted. -/
def envGet (st : State) (id : Nat) (name : String) : Option Object :=
  envGetFuel st (id + 1) id name

/-- Chain walk for `Env::assign`, with the same explicit hop bound.
Returns the updated state on success, `none` (state untouched by the
caller) when no environment in the chain defines `name`. -/
def envAssignFuel (st : State) : Nat → Nat → String → Object → Option State
  | 0, _, _, _ => none
  | fuel + 1, id, name, v =>
    match getEnv st id with
    | none => none
    | some e =>
      if containsA e.bindings name then
        some (setEnv st id { e with bindings := insertA e.bindings name v })
      else
        match e.enclosing with
        | some up => envAssignFuel st fuel up name v
        | none => none

/-- Models `Env::assign(name, value)`: mutate the nearest environment in the
chain (starting from `id`) that already contains `name`; `none` models
the `UndefinedVariable` error (no binding is created anywhere). -/
def envAssign (st : State) (id : Nat) (name : String) (v : Object) : Option State :=
  envAssignFuel st (id + 1) id name v

/-- The iterated hop inside `Env::ancestor`'s `for _ in 1..distance`
loop: follow `enclosing` exactly `k` more times from `id`.  `none`
models the `unwrap()` panic on a missing enclosing link. -/
def hops (st : State) : Nat → Nat → Option Nat
  | 0, id => some id
  | k + 1, id =>
    match (getEnv st id).bind (·.enclosing) with
    | none => none
    | some up => hops st k up

/-- Models `Env::ancestor(distance)`: start from `self.enclosing.unwrap()` (one
unconditional hop, even for `distance = 0`), then hop `distance - 1`
more times (`for _ in 1..distance`); `none` models the `unwrap()`
panic. -/
def ancestor (st : State) (id : Nat) (distance : Nat) : Option Nat :=
  match (getEnv st id).bind (·.enclosing) with
  | none => none
  | some up => hops st (distance - 1) up

/-- Outcomes of `Env::get_at`: the value, the `LoxError::new_internal`
miss, or the `unwrap()` panic inside `ancestor` (a Rust panic, kept
distinct from every `LoxError`). -/
inductive GetAtRes where
  | ok (v : Object)
  | internalErr (e : LoxError)
  | panicked
deriving Repr

/-- Models `Env::get_at(distance, name)`: jump via `ancestor`, then read the
binding map there directly, failing with
`LoxError::new_internal("undefined var: {name}")` if absent. -/
def getAt (st : State) (id : Nat) (distance : Nat) (name : String) : GetAtRes :=
  match ancestor st id distance with
  | none => .panicked
  | some a =>
    match getEnv st a with
    | none => .panicked
    | some e =>
      match lookupA e.bindings name with
      | some v => .ok v
      | none => .internalErr (LoxError.newInternal ("undefined var: " ++ name))

/-! Section: the evaluator (`interpreter.rs`, `control_flow.rs`, `lox_function.rs`) -/

/-- Models `Interpreter::is_truthy`: `Nil` and `Boolean(false)` are falsy,
everything else is truthy. -/
def isTruthy : Object → Bool
  | .nil => false
  | .boolean b => b
  | _ => true

/-- Display of a number (`f64::to_string` via `{}` formatting); on the
integral values the claims exercise, Rust prints the bare integer
digits, matching `Int.toString` (e.g. `1.0.to_string() == "1"`). -/
def numToString (n : Int) : String := toString n

/-- The `{:?}` debug rendering of a `TokenType`, as interpolated into the
"Unknown … operator" error messages. -/
def TokType.debugStr : TokType → String
  | .MINUS => "MINUS" | .PLUS => "PLUS" | .SLASH => "SLASH" | .STAR => "STAR"
  | .GREATER => "GREATER" | .GREATER_EQUAL => "GREATER_EQUAL"
  | .LESS => "LESS" | .LESS_EQUAL => "LESS_EQUAL"
  | .EQUAL_EQUAL => "EQUAL_EQUAL" | .BANG_EQUAL => "BANG_EQUAL"
  | .BANG => "BANG" | .OR => "OR" | .AND => "AND"
  | .RETURN => "RETURN" | .EOF => "EOF"

/-- The pure core of `visit_unary` after the operand is evaluated. -/
def unaryOp (op : TokType) (right : Object) : Except LoxError Object :=
  match op, right with
  | .MINUS, .number n => .ok (.number (-n))
  | .MINUS, _ => .error (.newRuntime "Unary minus can only be applied to numbers")
  | .BANG, v => .ok (.boolean (!isTruthy v))
  | op, _ => .error (.newRuntime ("Unknown unary operator: " ++ op.debugStr))

/-- The pure core of `visit_binary` after both operands are evaluated:
the full operator match of `interpreter.rs`, arm for arm.  (`f64`
arithmetic is modelled on `Int`; the claims only exercise exact integral
cases.) -/
def binaryOp (op : TokType) (left right : Object) : Except LoxError Object :=
  match op with
  | .MINUS =>
    match left, right with
    | .number l, .number r => .ok (.number (l - r))
    | _, _ => .error (.newRuntime "Binary minus can only be applied to numbers")
  | .PLUS =>
    match left, right with
    | .number l, .number r => .ok (.number (l + r))
    | .str l, .str r => .ok (.str (l ++ r))
    | .str l, .number r => .ok (.str (l ++ numToString r))
    | .number l, .str r => .ok (.str (numToString l ++ r))
    | _, _ => .error (.newRuntime "Binary plus can only be applied to numbers or strings")
  | .SLASH =>
    match left, right with
    | .number l, .number r =>
      if r ≠ 0 then .ok (.number (l / r))
      else .error (.newRuntime "Division by zero")
    | _, _ => .error (.newRuntime "Binary slash can only be applied to numbers")
  | .STAR =>
    match left, right with
    | .number l, .number r => .ok (.number (l * r))
    | _, _ => .error (.newRuntime "Binary star can only be applied to numbers")
  | .GREATER =>
    match left, right with
    | .number l, .number r => .ok (.boolean (decide (l > r)))
    | _, _ => .error (.newRuntime "Binary greater can only be applied to numbers")
  | .GREATER_EQUAL =>
    match left, right with
    | .number l, .number r => .ok (.boolean (decide (l ≥ r)))
    | _, _ => .error (.newRuntime "Binary greater equal can only be applied to numbers")
  | .LESS =>
    match left, right with
    | .number l, .number r => .ok (.boolean (decide (l < r)))
    | _, _ => .error (.newRuntime "Binary less can only be applied to numbers")
  | .LESS_EQUAL =>
    match left, right with
    | .number l, .number r => .ok (.boolean (decide (l ≤ r)))
    | _, _ => .error (.newRuntime "Binary less equal can only be applied to numbers")
  | .EQUAL_EQUAL => .ok (.boolean (objEq left right))
  | .BANG_EQUAL => .ok (.boolean (!objEq left right))
  | op => .error (.newRuntime ("Unknown binary operator: " ++ op.debugStr))

/-- Models `ControlFlow` (`control_flow.rs`): `None` or `Return(value)`. -/
inductive Flow where
  | fNone
  | ret (v : Object)
deriving Repr

/-- The outcome of one visitor call, `FlowResult<Object> =
Result<(Object, ControlFlow), LoxError>`, plus the two modelling
artefacts: `oof` (explicit-fuel exhaustion, i.e. the computation needs
more host recursion) and `panicR` (a Rust panic such as an
out-of-bounds index, distinct from any `LoxError`). -/
inductive Res where
  | ok (v : Object) (flow : Flow)
  | err (e : LoxError)
  | oof
  | panicR
deriving Repr

/-- The `expr.accept(self)?.0` pattern: on success continue with the
value (flow discarded by `.0`), propagate errors unchanged. -/
def bindVal (r : State × Res) (k : Object → State → State × Res) : State × Res :=
  match r with
  | (st, .ok v _) => k v st
  | other => other

/-- The `stmt.accept(self)?;` + `ok(Object::Nil)` pattern of
`visit_if_stmt` and `visit_block`: discard both value and control-flow
signal of a successful sub-execution and produce `Ok((Nil, None))`;
only a `LoxError` propagates. -/
def toNilOk (r : State × Res) : State × Res :=
  match r with
  | (st, .ok _ _) => (st, .ok .nil .fNone)
  | other => other

/-- Result of evaluating a call's argument list left to right. -/
inductive ArgsRes where
  | oks (vs : List Object)
  | errA (e : LoxError)
  | oofA
  | panicA
deriving Repr

/-- Models `LoxCallable::arity`. -/
def arity : FnVal → Nat
  | .lox _ _ params _ _ => params.length
  | .clock => 0

/-- Parameter binding in `LoxFunction::call`: `define` each parameter
positionally into the fresh environment (the caller has checked
`params.length ≤ args.length`, so `zip` binds every parameter). -/
def bindParams (st : State) (envId : Nat) (params : List String) (args : List Object) : State :=
  (params.zip args).foldl (fun s pa => envDefine s envId pa.1 pa.2) st

mutual

/-- Models the `ExprVisitor` dispatch of the `Interpreter` (`interpreter.rs`),
variant by variant.  The fuel is decremented at every node. -/
def evalExpr : Nat → Expr → State → State × Res
  | 0, _, st => (st, .oof)
  | fuel + 1, e, st =>
    match e with
    | .literal l =>
      -- `visit_literal`; the `Error` payload raises a runtime error on use
      match l with
      | .nil => (st, .ok .nil .fNone)
      | .boolean b => (st, .ok (.boolean b) .fNone)
      | .number n => (st, .ok (.number n) .fNone)
      | .str s => (st, .ok (.str s) .fNone)
      | .errV msg => (st, .err (.newRuntime msg))
    | .grouping inner => evalExpr fuel inner st
    | .unary op right =>
      bindVal (evalExpr fuel right st) fun v st =>
        match unaryOp op v with
        | .ok r => (st, .ok r .fNone)
        | .error er => (st, .err er)
    | .binary l op r =>
      bindVal (evalExpr fuel l st) fun lv st =>
        bindVal (evalExpr fuel r st) fun rv st =>
          match binaryOp op lv rv with
          | .ok v => (st, .ok v .fNone)
          | .error er => (st, .err er)
    | .ternary c t f =>
      bindVal (evalExpr fuel c st) fun cv st =>
        if isTruthy cv then evalExpr fuel t st else evalExpr fuel f st
    | .variable name =>
      -- `visit_variable`: always the full-chain `Env::get`, remapping a
      -- miss to the "during visit" runtime error
      match envGet st st.current name with
      | some v => (st, .ok v .fNone)
      | none =>
        (st, .err (.newRuntime ("Undefined variable \x27" ++ name ++ "\x27 during visit.")))
    | .assign name value =>
      -- `visit_assign`: evaluate, `Env::assign` against the chain
      -- (its error propagates via `?`), result is the assigned value
      bindVal (evalExpr fuel value st) fun v st =>
        match envAssign st st.current name v with
        | some st2 => (st2, .ok v .fNone)
        | none =>
          (st, .err (.newRuntime ("Undefined variable \x27" ++ name ++ "\x27 during assign.")))
    | .logical l op r =>
      -- `visit_logical`: short-circuit, returning the deciding operand
      bindVal (evalExpr fuel l st) fun lv st =>
        if op = .OR then
          if isTruthy lv then (st, .ok lv .fNone) else evalExpr fuel r st
        else
          if !isTruthy lv then (st, .ok lv .fNone) else evalExpr fuel r st
    | .call callee args =>
      -- `visit_call`: callee, then every argument, then the callable
      -- check, then the arity check, then the invocation
      bindVal (evalExpr fuel callee st) fun cv st =>
        match evalArgs fuel args st with
        | (st, .oks vs) =>
          match cv with
          | .function f =>
            if vs.length ≠ arity f then
              (st, .err (.newRuntime
                ("Expected " ++ toString (arity f) ++ " arguments but got "
                  ++ toString vs.length ++ ".")))
            else callFn fuel f vs st
          | _ => (st, .err (.newRuntime "Can only call functions."))
        | (st, .errA e) => (st, .err e)
        | (st, .oofA) => (st, .oof)
        | (st, .panicA) => (st, .panicR)

/-- The argument loop of `visit_call`: left to right, `?.0` on each. -/
def evalArgs : Nat → List Expr → State → State × ArgsRes
  | 0, _, st => (st, .oofA)
  | _ + 1, [], st => (st, .oks [])
  | fuel + 1, a :: rest, st =>
    match evalExpr fuel a st with
    | (st, .ok v _) =>
      match evalArgs fuel rest st with
      | (st, .oks vs) => (st, .oks (v :: vs))
      | other => other
    | (st, .err e) => (st, .errA e)
    | (st, .oof) => (st, .oofA)
    | (st, .panicR) => (st, .panicA)

/-- Models the `StmtVisitor` dispatch of the `Interpreter`, variant by variant. -/
def execStmt : Nat → Stmt → State → State × Res
  | 0, _, st => (st, .oof)
  | fuel + 1, s, st =>
    match s with
    | .expression e =>
      -- `visit_expression`: `ok(expression.accept(self)?.0)`
      bindVal (evalExpr fuel e st) fun v st => (st, .ok v .fNone)
    | .print e =>
      -- `visit_print`: evaluate, emit, `ok(eval.0)`
      bindVal (evalExpr fuel e st) fun v st =>
        ({ st with output := st.output ++ [v] }, .ok v .fNone)
    | .var name initializer =>
      -- `visit_var`: evaluate initializer, `define` in current env
      bindVal (evalExpr fuel initializer st) fun v st =>
        (envDefine st st.current name v, .ok .nil .fNone)
    | .block ss =>
      -- `visit_block`: fresh child env, then `execute_block`
      let alloc := newEnclosed st st.current
      toNilOk (executeBlock fuel ss alloc.2 alloc.1)
    | .ifStmt c t e =>
      -- `visit_if_stmt`: condition, exactly one branch, `ok(Nil)` —
      -- the branch's control-flow signal is discarded by the `?;`
      bindVal (evalExpr fuel c st) fun cv st =>
        if isTruthy cv then toNilOk (execStmt fuel t st)
        else
          match e with
          | some eb => toNilOk (execStmt fuel eb st)
          | none => (st, .ok .nil .fNone)
    | .whileStmt c b =>
      -- `visit_while_stmt`: body's signal likewise discarded
      bindVal (evalExpr fuel c st) fun cv st =>
        if isTruthy cv then
          match execStmt fuel b st with
          | (st, .ok _ _) => execStmt fuel (.whileStmt c b) st
          | other => other
        else (st, .ok .nil .fNone)
    | .function name params body =>
      -- `visit_function`: build the function object capturing the
      -- *current* environment, `define` it under its name
      let fnObj := Object.function (.lox st.nextFnId name params body st.current)
      let st1 := envDefine st st.current name fnObj
      ({ st1 with nextFnId := st1.nextFnId + 1 }, .ok .nil .fNone)
    | .returnStmt e =>
      -- `visit_return_stmt`: `return_value(value.accept(self)?.0)`,
      -- i.e. `Ok((Nil, Return(v)))`
      bindVal (evalExpr fuel e st) fun v st => (st, .ok .nil (.ret v))

/-- Models `Interpreter::execute_block`: install `newEnv` as current under an
`EnvGuard`, run every statement in order (each `?;` discards the value
*and* the control-flow signal, stopping only on `LoxError`), and restore
the previous current environment on every exit path — the guard's
`Drop` runs on the error path too, which the explicit state threading
reproduces. -/
def executeBlock : Nat → List Stmt → Nat → State → State × Res
  | 0, _, _, st => (st, .oof)
  | fuel + 1, stmts, newEnv, st =>
    let prev := st.current
    let run := execStmtsD fuel stmts { st with current := newEnv }
    ({ run.1 with current := prev }, run.2)

/-- The statement loop inside `execute_block`. -/
def execStmtsD : Nat → List Stmt → State → State × Res
  | 0, _, st => (st, .oof)
  | _ + 1, [], st => (st, .ok .nil .fNone)
  | fuel + 1, s :: rest, st =>
    match execStmt fuel s st with
    | (st, .ok _ _) => execStmtsD fuel rest st
    | other => other

/-- Models `LoxFunction::call` and `ClockFunction::call`.  For a user function:
fresh environment enclosing the *captured closure* (`self.closure`, not
the caller's current environment), positional parameter binding, body
execution under an `EnvGuard`, result the first surfacing `Return`
value, else `Nil`.  If a parameter has no matching argument the Rust
`args[i]` indexing panics (`panicR`); `visit_call`'s arity check makes
that unreachable.  The clock native's wall-clock reading is modelled as
the constant 0 (no claim observes it). -/
def callFn : Nat → FnVal → List Object → State → State × Res
  | 0, _, _, st => (st, .oof)
  | _ + 1, .clock, _, st => (st, .ok (.number 0) .fNone)
  | fuel + 1, .lox _ _ params body closure, args, st =>
    if params.length ≤ args.length then
      let alloc := newEnclosed st closure
      let st2 := bindParams alloc.1 alloc.2 params args
      let prev := st2.current
      let run := execBody fuel body { st2 with current := alloc.2 }
      ({ run.1 with current := prev }, run.2)
    else (st, .panicR)

/-- The body dispatch inside `LoxFunction::call`: a `Block` body runs
its statements with a per-statement `Return` check; a non-block body is
executed as a single statement with the same check. -/
def execBody : Nat → Stmt → State → State × Res
  | 0, _, st => (st, .oof)
  | fuel + 1, body, st =>
    match body with
    | .block ss => execBodyStmts fuel ss st
    | s =>
      match execStmt fuel s st with
      | (st, .ok _ (.ret v)) => (st, .ok v .fNone)
      | (st, .ok _ .fNone) => (st, .ok .nil .fNone)
      | other => other

/-- The statement loop inside `LoxFunction::call`: unlike
`execute_block`, this loop *does* inspect each statement's control-flow
signal and returns the carried value when a `Return` surfaces; falling
off the end yields `Nil`. -/
def execBodyStmts : Nat → List Stmt → State → State × Res
  | 0, _, st => (st, .oof)
  | _ + 1, [], st => (st, .ok .nil .fNone)
  | fuel + 1, s :: rest, st =>
    match execStmt fuel s st with
    | (st, .ok _ (.ret v)) => (st, .ok v .fNone)
    | (st, .ok _ .fNone) => execBodyStmts fuel rest st
    | other => other

end

/-- Outcome of `Interpreter::interpret`. -/
inductive TopRes where
  | okT
  | errT (e : LoxError)
  | oofT
  | panicT
deriving Repr

/-- Models `Interpreter::interpret`: execute the top-level statements in order;
a surfacing `Return` signal is a runtime error ("Cannot return from
top-level code."). -/
def interpretStmts : Nat → List Stmt → State → State × TopRes
  | 0, _, st => (st, .oofT)
  | _ + 1, [], st => (st, .okT)
  | fuel + 1, s :: rest, st =>
    match execStmt fuel s st with
    | (st, .ok _ .fNone) => interpretStmts fuel rest st
    | (st, .ok _ (.ret _)) =>
      (st, .errT (.newRuntime "Cannot return from top-level code."))
    | (st, .err e) => (st, .errT e)
    | (st, .oof) => (st, .oofT)
    | (st, .panicR) => (st, .panicT)

/-- Models `Interpreter::new`: one global environment with the clock native
pre-`define`d. -/
def initState : State :=
  { envs := [⟨none, [("clock", .function .clock)]⟩]
    current := 0
    output := []
    nextFnId := 0 }

/-- Run a whole program from the bootstrap state. -/
def interpretProgram (stmts : List Stmt) (fuel : Nat) : State × TopRes :=
  interpretStmts fuel stmts initState

/-! Section: the resolver (`resolver.rs`) -/

/-- Models `FunctionType` (`resolver.rs`). -/
inductive FunctionType where
  | NONE
  | FUNCTION
deriving DecidableEq, Repr

/-- Models `VarState` (`resolver.rs`): the per-scope
`Declared → Defined → Used` state machine. -/
inductive VarState where
  | DECL
  | DEF
  | USE
deriving DecidableEq, Repr

/-- One lexical scope of the resolver: `HashMap<String, VarState>`. -/
abbrev Scope := List (String × VarState)

/-- Resolver state (`struct Resolver`).  The scope stack is held with the
innermost scope at the *head* of the list (the Rust `Vec` pushes and
pops at its end, iterating `rev()` for innermost-first walks; the head
representation makes push/pop/last direct).  `locals` is modelled from
the spec: `resolve_local` hands each resolved `(name, distance)` pair to
`Interpreter::resolve`, a method absent from `src/`; spec §3 says the
interpreter retains a per-use-site distance table. -/
structure RState where
  scopes : List Scope
  errors : List LoxError
  currentFunction : FunctionType
  locals : List (String × Nat)
deriving Repr

/-- Models `Resolver::new`. -/
def initRState : RState := ⟨[], [], .NONE, []⟩

/-- Push a diagnostic (the `self.errors.borrow_mut().push(..)` calls). -/
def pushErr (rs : RState) (e : LoxError) : RState :=
  { rs with errors := rs.errors ++ [e] }

/-- Models `Resolver::begin_scope`. -/
def beginScope (rs : RState) : RState :=
  { rs with scopes := [] :: rs.scopes }

/-- Unused-variable diagnostics produced when a scope is popped:
`Declared` and `Defined` entries yield warnings, `Used` entries none. -/
def warningsOf (scope : Scope) : List LoxError :=
  scope.filterMap fun nk =>
    match nk.2 with
    | .DECL => some (.newWarning ("Variable \x27" ++ nk.1 ++ "\x27 is declared but never used"))
    | .DEF => some (.newWarning ("Variable \x27" ++ nk.1 ++ "\x27 is defined but never used"))
    | .USE => none

/-- Models `Resolver::end_scope`: pop the innermost scope and emit the
unused-variable warnings for what it still holds.  (The `pop().unwrap()`
on an empty stack would panic; scopes are bracketed, so that arm is
unreachable and modelled as a no-op.) -/
def endScope (rs : RState) : RState :=
  match rs.scopes with
  | [] => rs
  | scope :: rest =>
    { rs with scopes := rest, errors := rs.errors ++ warningsOf scope }

/-- Models `Resolver::declare`: a no-op at global scope; otherwise insert
`name → Declared` into the innermost scope, first emitting the duplicate
diagnostic (`LoxError::new_internal`) if the name is already present in
that exact scope. -/
def declare (rs : RState) (name : String) : RState :=
  match rs.scopes with
  | [] => rs
  | scope :: rest =>
    let rs1 :=
      if containsA scope name then
        pushErr rs (.newInternal "Already a variable with this name in this scope")
      else rs
    { rs1 with scopes := insertA scope name .DECL :: rest }

/-- Models `Resolver::define`: a no-op at global scope; otherwise set the
name to `Defined` in the innermost scope unless it is already `Used`. -/
def defineR (rs : RState) (name : String) : RState :=
  match rs.scopes with
  | [] => rs
  | scope :: rest =>
    match lookupA scope name with
    | some .USE => rs
    | _ => { rs with scopes := insertA scope name .DEF :: rest }

/-- The mark-as-used walk inside the resolver's `visit_variable`:
innermost-first, in the first scope containing the name promote
`Defined` to `Used`, then stop. -/
def markUsed : List Scope → String → List Scope
  | [], _ => []
  | scope :: rest, name =>
    if containsA scope name then
      (match lookupA scope name with
       | some .DEF => insertA scope name .USE
       | _ => scope) :: rest
    else scope :: markUsed rest name

/-- The distance computation of `Resolver::resolve_local`: the index,
counting from the innermost scope, of the first scope containing the
name (`scopes.len() - i - 1` over the reversed iteration in the
source); `none` when no scope contains it (assumed global). -/
def resolveLocalDist : List Scope → String → Option Nat
  | [], _ => none
  | scope :: rest, name =>
    if containsA scope name then some 0
    else (resolveLocalDist rest name).map (· + 1)

/-- Models `Resolver::resolve_local`: record the computed distance for
this use site (the recording sink, `Interpreter::resolve`, is modelled
from the spec as an append-only table — the method is absent from
`src/`); a name found in no scope records nothing. -/
def resolveLocal (rs : RState) (name : String) : RState :=
  match resolveLocalDist rs.scopes name with
  | some d => { rs with locals := rs.locals ++ [(name, d)] }
  | none => rs

mutual

/-- Models the `ExprVisitor` dispatch of the `Resolver`, variant by
variant. -/
def resolveExpr : Nat → Expr → RState → RState
  | 0, _, rs => rs
  | fuel + 1, e, rs =>
    match e with
    | .variable name =>
      -- `visit_variable`: same-scope `Declared` read is the
      -- self-reference-in-initializer error; then mark used; then
      -- `resolve_local`
      let rs1 :=
        match rs.scopes with
        | [] => rs
        | scope :: _ =>
          let rs2 :=
            if lookupA scope name = some .DECL then
              pushErr rs (.newParse "Can\x27t read local variable in its own initializer.")
            else rs
          { rs2 with scopes := markUsed rs2.scopes name }
      resolveLocal rs1 name
    | .assign name value =>
      resolveLocal (resolveExpr fuel value rs) name
    | .binary l _ r => resolveExpr fuel r (resolveExpr fuel l rs)
    | .logical l _ r => resolveExpr fuel r (resolveExpr fuel l rs)
    | .unary _ r => resolveExpr fuel r rs
    | .ternary c t f =>
      -- the source resolves condition, then false branch, then true branch
      resolveExpr fuel t (resolveExpr fuel f (resolveExpr fuel c rs))
    | .grouping inner => resolveExpr fuel inner rs
    | .call callee args => resolveExprs fuel args (resolveExpr fuel callee rs)
    | .literal _ => rs

/-- The argument loop of the resolver's `visit_call`. -/
def resolveExprs : Nat → List Expr → RState → RState
  | 0, _, rs => rs
  | _ + 1, [], rs => rs
  | fuel + 1, e :: rest, rs => resolveExprs fuel rest (resolveExpr fuel e rs)

/-- Models the `StmtVisitor` dispatch of the `Resolver`, variant by
variant. -/
def resolveStmt : Nat → Stmt → RState → RState
  | 0, _, rs => rs
  | fuel + 1, s, rs =>
    match s with
    | .block ss => endScope (resolveStmtsR fuel ss (beginScope rs))
    | .var name initializer =>
      -- `visit_var`: a synthetic scope is wrapped around a *top-level*
      -- declaration so that global initializer self-reference is
      -- detected by the same per-scope mechanism
      let wasGlobal := rs.scopes.isEmpty
      let rs1 := if wasGlobal then beginScope rs else rs
      let rs2 := defineR (resolveExpr fuel initializer (declare rs1 name)) name
      if wasGlobal then endScope rs2 else rs2
    | .function name _params _body =>
      -- `visit_function`: local functions are declared+defined in the
      -- enclosing scope before the body is resolved; global ones are not
      -- tracked
      let rs1 := if rs.scopes.isEmpty then rs else defineR (declare rs name) name
      resolveFunctionR fuel s rs1
    | .expression e => resolveExpr fuel e rs
    | .print e => resolveExpr fuel e rs
    | .ifStmt c t e =>
      let rs1 := resolveStmt fuel t (resolveExpr fuel c rs)
      match e with
      | some eb => resolveStmt fuel eb rs1
      | none => rs1
    | .whileStmt c b => resolveStmt fuel b (resolveExpr fuel c rs)
    | .returnStmt value =>
      -- `visit_return_stmt`: `return` with no enclosing function is a
      -- static error; the value expression is still resolved
      let rs1 :=
        if rs.currentFunction = .NONE then
          pushErr rs (.newParse "Cannot return from top level code.")
        else rs
      resolveExpr fuel value rs1

/-- Models `Resolver::resolve_function`: stash and set
`current_function`, open one scope holding the parameters, resolve the
body's statements directly in that scope (no second nested scope for the
body block), close the scope, restore `current_function`. -/
def resolveFunctionR : Nat → Stmt → RState → RState
  | 0, _, rs => rs
  | fuel + 1, s, rs =>
    match s with
    | .function _ params body =>
      let enclosing := rs.currentFunction
      let rs1 := beginScope { rs with currentFunction := .FUNCTION }
      let rs2 := params.foldl (fun r p => defineR (declare r p) p) rs1
      let rs3 :=
        match body with
        | .block ss => resolveStmtsR fuel ss rs2
        | other => resolveStmt fuel other rs2
      { endScope rs3 with currentFunction := enclosing }
    | _ => rs

/-- Models `Resolver::resolve_statements`. -/
def resolveStmtsR : Nat → List Stmt → RState → RState
  | 0, _, rs => rs
  | _ + 1, [], rs => rs
  | fuel + 1, s :: rest, rs => resolveStmtsR fuel rest (resolveStmt fuel s rs)

end

/-! Section: shared lemmas -/

/-- Inserting a key makes it the result of a subsequent lookup. -/
theorem lookupA_insertA_self (m : List (String × α)) (k : String) (v : α) :
    lookupA (insertA m k v) k = some v := by
  induction m with
  | nil => simp [insertA, lookupA]
  | cons kv rest ih =>
    obtain ⟨k', v'⟩ := kv
    by_cases h : k' = k
    · simp [insertA, lookupA, h]
    · simp [insertA, lookupA, h, ih]

/-- Inserting a key makes the map contain it. -/
theorem containsA_insertA_self (m : List (String × α)) (k : String) (v : α) :
    containsA (insertA m k v) k = true := by
  induction m with
  | nil => simp [insertA, containsA]
  | cons kv rest ih =>
    obtain ⟨k', v'⟩ := kv
    by_cases h : k' = k
    · simp [insertA, containsA, h]
    · simp [insertA, containsA, h, ih]

/-- Defining a binding never moves the current-environment cursor. -/
theorem envDefine_current (st : State) (id : Nat) (n : String) (v : Object) :
    (envDefine st id n v).current = st.current := by
  unfold envDefine
  cases h : getEnv st id <;> simp [h, setEnv]

/-- The parameter-binding fold never moves the current-environment
cursor. -/
theorem foldl_envDefine_current (l : List (String × Object)) (id : Nat) (st : State) :
    (l.foldl (fun s pa => envDefine s id pa.1 pa.2) st).current = st.current := by
  induction l generalizing st with
  | nil => rfl
  | cons pa rest ih => rw [List.foldl_cons, ih, envDefine_current]

/-- Specialisation of the previous lemma to `bindParams`. -/
theorem bindParams_current (st : State) (id : Nat) (params : List String)
    (args : List Object) : (bindParams st id params args).current = st.current :=
  foldl_envDefine_current _ _ _

/-! Section: claim C7 -/

/-- Specification reference for the claim's wording of `+`:
Number+Number adds; String+String concatenates; String+Number and
Number+String coerce the Number to its display string and concatenate in
operand order; any other combination errors. -/
def plusSpec (l r : Object) : Except LoxError Object :=
  match l, r with
  | .number a, .number b => .ok (.number (a + b))
  | .str a, .str b => .ok (.str (a ++ b))
  | .str a, .number b => .ok (.str (a ++ numToString b))
  | .number a, .str b => .ok (.str (numToString a ++ b))
  | _, _ => .error (.newRuntime "Binary plus can only be applied to numbers or strings")

/-- C7: binary `+` on two Numbers adds, on two Strings concatenates, on
a String and a Number (either order) coerces the Number to its display
string and concatenates in operand order, and errors on every other
combination; concretely `"a" + 1` evaluates to `"a1"`, `1 + "a"` to
`"1a"`, and `1 + "a" + true` raises a runtime error. -/
theorem c7_plus_semantics :
    (∀ l r : Object, binaryOp .PLUS l r = plusSpec l r)
    ∧ (evalExpr 5 (.binary (.literal (.str "a")) .PLUS (.literal (.number 1))) initState).2
        = .ok (.str "a1") .fNone
    ∧ (evalExpr 5 (.binary (.literal (.number 1)) .PLUS (.literal (.str "a"))) initState).2
        = .ok (.str "1a") .fNone
    ∧ (evalExpr 7 (.binary (.binary (.literal (.number 1)) .PLUS (.literal (.str "a"))) .PLUS
          (.literal (.boolean true))) initState).2
        = .err (.newRuntime "Binary plus can only be applied to numbers or strings") := by
  refine ⟨fun l r => ?_, rfl, rfl, rfl⟩
  cases l <;> cases r <;> rfl

/-! Section: claim C5 -/

/-- A two-environment chain: the global environment binds `x` to 2, the
current environment (id 1, enclosing 0) binds `x` to 1. -/
def stC5ex : State :=
  { envs := [⟨none, [("x", .number 2)]⟩, ⟨some 0, [("x", .number 1)]⟩]
    current := 1
    output := []
    nextFnId := 0 }

/-- C5 counterexample: `get_at(0, name)` does not read the current
environment itself.  In the chain global `x = 2` ← current `x = 1`,
`get_at(0, "x")` starting from the current environment returns 2 — the
first thing `ancestor` does is one unconditional `enclosing` hop, so
distance 0 lands on the enclosing environment, not the current one. -/
theorem c5_counterexample :
    getEnv stC5ex stC5ex.current = some ⟨some 0, [("x", .number 1)]⟩
    ∧ getAt stC5ex stC5ex.current 0 "x" = .ok (.number 2)
    ∧ getAt stC5ex stC5ex.current 0 "x" ≠ .ok (.number 1) := by
  refine ⟨rfl, rfl, ?_⟩
  intro h
  rw [show getAt stC5ex stC5ex.current 0 "x" = .ok (.number 2) from rfl] at h
  simp at h

/-- C5 (amended): `ancestor(d)` follows exactly `max 1 d` enclosing
links (distance 0 behaves like distance 1, so `get_at(0, ·)` reads the
*enclosing* environment, not the current one; `none` models the
`unwrap()` panic on a too-short chain), and when the binding is absent
at the environment `ancestor` lands on, `get_at` fails with the internal
error `"undefined var: ⟨name⟩"`, not a user-facing runtime error. -/
theorem c5_getAt_amended :
    (∀ st id d, ancestor st id d = hops st (max 1 d) id)
    ∧ (∀ st id d name a e, ancestor st id d = some a → getEnv st a = some e →
        lookupA e.bindings name = none →
        getAt st id d name = .internalErr (.newInternal ("undefined var: " ++ name))) := by
  constructor
  · intro st id d
    unfold ancestor
    rcases d with _ | d
    · show _ = hops st 1 id
      cases h : (getEnv st id).bind (fun e => e.enclosing) <;> simp [hops, h]
    · show _ = hops st (max 1 (d + 1)) id
      rw [Nat.max_eq_right (Nat.succ_le_succ (Nat.zero_le d))]
      cases h : (getEnv st id).bind (fun e => e.enclosing) <;> simp [hops, h]
  · intro st id d name a e ha he hl
    unfold getAt
    simp [ha, he, hl]

/-- Instance of `c5_getAt_amended` at a concrete chain: at distance 1
from environment 1, `get_at` lands on the global environment and reports
the internal "undefined var" error for the absent name `y`. -/
theorem c5_getAt_amended_witness :
    ancestor stC5ex 1 1 = some 0
    ∧ getEnv stC5ex 0 = some ⟨none, [("x", .number 2)]⟩
    ∧ lookupA [("x", Object.number 2)] "y" = none
    ∧ getAt stC5ex 1 1 "y" = .internalErr (.newInternal ("undefined var: " ++ "y")) :=
  ⟨rfl, rfl, rfl,
    c5_getAt_amended.2 stC5ex 1 1 "y" 0 ⟨none, [("x", .number 2)]⟩ rfl rfl rfl⟩

/-! Section: claim C4 -/

/-- The spec's shadowing round-trip program:
`var x = 10; { var x = 20; print x; } print x;`. -/
def shadowProg : List Stmt :=
  [.var "x" (.literal (.number 10)),
   .block [.var "x" (.literal (.number 20)), .print (.variable "x")],
   .print (.variable "x")]

/-- C4: on every exit path of `execute_block` and of `LoxFunction::call`
— normal completion, a propagated `Return` signal, a propagated runtime
error, or even fuel exhaustion — the current-environment cursor is
restored to its pre-entry value (the `EnvGuard`'s `Drop` in the source,
explicit restoration in the state-passing model); and the shadowing
round-trip `var x=10; { var x=20; print x; } print x;` prints 20 then
10. -/
theorem c4_env_restoration :
    (∀ fuel stmts newEnv st, ((executeBlock fuel stmts newEnv st).1).current = st.current)
    ∧ (∀ fuel f args st, ((callFn fuel f args st).1).current = st.current)
    ∧ (interpretProgram shadowProg 20).1.output = [.number 20, .number 10]
    ∧ (interpretProgram shadowProg 20).2 = .okT := by
  refine ⟨fun fuel stmts newEnv st => ?_, fun fuel f args st => ?_, rfl, rfl⟩
  · cases fuel <;> rfl
  · cases fuel with
    | zero => rfl
    | succ fuel =>
      cases f with
      | clock => rfl
      | lox id name params body closure =>
        show ((callFn (fuel + 1) (.lox id name params body closure) args st).1).current
          = st.current
        unfold callFn
        split
        · exact bindParams_current _ _ _ _
        · rfl

/-! Section: claim C3 -/

/-- A program whose block-local read of `x` gets distance 0 recorded by
the resolver: `var x = 2; { var x = 1; print x; }`. -/
def p3Prog : List Stmt :=
  [.var "x" (.literal (.number 2)),
   .block [.var "x" (.literal (.number 1)), .print (.variable "x")]]

/-- The interpreter state at the moment `p3Prog`'s `print x` reads `x`:
the global environment (clock native, `x = 2`) below the block
environment (`x = 1`), with the block environment current. -/
def stC3ex : State :=
  { envs := [⟨none, [("clock", .function .clock), ("x", .number 2)]⟩,
             ⟨some 0, [("x", .number 1)]⟩]
    current := 1
    output := []
    nextFnId := 0 }

/-- C3 counterexample: the resolver records distance 0 for the
block-local read of `x` in `p3Prog`, yet the evaluator does not read
through `get_at(0, "x")`: `visit_variable` always calls the full-chain
`get`, producing 1 (and the program prints 1), whereas `get_at(0, "x")`
at the same state produces 2. -/
theorem c3_counterexample :
    (resolveStmtsR 20 p3Prog initRState).locals = [("x", 0)]
    ∧ (interpretProgram p3Prog 20).1.output = [.number 1]
    ∧ evalExpr 5 (.variable "x") stC3ex = (stC3ex, .ok (.number 1) .fNone)
    ∧ getAt stC3ex stC3ex.current 0 "x" = .ok (.number 2)
    ∧ Object.number 1 ≠ Object.number 2 := by
  refine ⟨rfl, rfl, rfl, rfl, ?_⟩
  intro h
  simp at h

/-- C3 (amended): the evaluator never consults the resolver's recorded
distances — every `Variable` read goes through the full-chain
`Env::get` from the current environment (`visit_variable` has no
`get_at` path; the distances recorded by `resolve_local` have no
consumer in `src/`), a read finding the nearest binding; a read that
misses everywhere is the runtime error "Undefined variable '…' during
visit.", never silently `Nil`. -/
theorem c3_variable_read_amended :
    (∀ fuel st name,
      evalExpr (fuel + 1) (.variable name) st
        = (st, match envGet st st.current name with
               | some v => .ok v .fNone
               | none => .err (.newRuntime
                   ("Undefined variable \x27" ++ name ++ "\x27 during visit."))))
    ∧ (∀ st name e v, getEnv st st.current = some e → lookupA e.bindings name = some v →
        ∀ fuel, evalExpr (fuel + 1) (.variable name) st = (st, .ok v .fNone)) := by
  constructor
  · intro fuel st name
    cases h : envGet st st.current name <;> simp [evalExpr, h]
  · intro st name e v he hl fuel
    have hg : envGet st st.current name = some v := by
      unfold envGet envGetFuel
      simp [he, hl]
    cases hg2 : envGet st st.current name <;> simp [evalExpr, hg2] <;>
      simp [hg2] at hg
    exact hg

/-- Instance of `c3_variable_read_amended` at the concrete chain of
`stC3ex`: the read of `x` yields the current environment's binding 1. -/
theorem c3_variable_read_amended_witness :
    evalExpr 5 (.variable "x") stC3ex = (stC3ex, .ok (.number 1) .fNone) :=
  c3_variable_read_amended.2 stC3ex "x" ⟨some 0, [("x", .number 1)]⟩ (.number 1) rfl rfl 4

/-! Section: claim C1 -/

/-- A block whose first statement is `return 1;` followed by
`print 99;`. -/
def c1BlockStmts : List Stmt :=
  [.returnStmt (.literal (.number 1)), .print (.literal (.number 99))]

/-- The program `fun g() { if (true) return 1; return 2; } print g();`
— under the claim's propagation rule the call must return 1. -/
def c1IfReturnProg : List Stmt :=
  [.function "g" [] (.block
      [.ifStmt (.literal (.boolean true)) (.returnStmt (.literal (.number 1))) none,
       .returnStmt (.literal (.number 2))]),
   .print (.call (.variable "g") [])]

/-- The claim's own program:
`fun fact(n){ if (n<=1) return 1; return n*fact(n-1); } print fact(5);`. -/
def factProg : List Stmt :=
  [.function "fact" ["n"] (.block
    [.ifStmt (.binary (.variable "n") .LESS_EQUAL (.literal (.number 1)))
        (.returnStmt (.literal (.number 1))) none,
     .returnStmt (.binary (.variable "n") .STAR
        (.call (.variable "fact") [.binary (.variable "n") .MINUS (.literal (.number 1))]))]),
   .print (.call (.variable "fact") [.literal (.number 5)])]

/-- C1 (code bug, demonstrated): a `Return` signal produced inside a
nested statement does *not* propagate.  Executing the block
`{ return 1; print 99; }` does not stop early (the `print` runs) and
surfaces no `Return` signal (`execute_block`'s `?;` discards the
control-flow component); a `return` inside an `if` branch of a function
body does not become the call's result (`visit_if_stmt` returns
`ControlFlow::None` unconditionally), so `g()` in
`fun g(){ if (true) return 1; return 2; }` yields 2, not 1; and the
claim's `fact` program never reaches its base case — the run exhausts
any fuel with no output instead of printing 120 (the Rust original
recurses until the host stack overflows). -/
theorem c1_return_signal_swallowed :
    (execStmt 10 (.block c1BlockStmts) initState).2 = .ok .nil .fNone
    ∧ (execStmt 10 (.block c1BlockStmts) initState).1.output = [.number 99]
    ∧ (interpretProgram c1IfReturnProg 30).1.output = [.number 2]
    ∧ (interpretProgram c1IfReturnProg 30).2 = .okT
    ∧ (interpretProgram factProg 40).2 = .oofT
    ∧ (interpretProgram factProg 40).1.output = [] :=
  ⟨rfl, rfl, rfl, rfl, rfl, rfl⟩

/-! Section: claim C10 -/

/-- A one-environment state with the clock native and `x = 0`, for
observing argument side effects of failing calls. -/
def stC10 : State :=
  { envs := [⟨none, [("clock", .function .clock), ("x", .number 0)]⟩]
    current := 0
    output := []
    nextFnId := 0 }

/-- The state `stC10` after the argument expression `x = 5` has run. -/
def stC10x5 : State :=
  { envs := [⟨none, [("clock", .function .clock), ("x", .number 5)]⟩]
    current := 0
    output := []
    nextFnId := 0 }

/-- C10: in a `Call` expression every argument is fully evaluated (left
to right, side effects included) before the callee is checked to be
callable and before the arity check: whenever the callee evaluates to a
non-callable value and the arguments evaluate successfully, the call
fails with "Can only call functions." *from the post-argument state*;
and whenever the callee is callable but the argument count mismatches,
the arity error is likewise raised from the post-argument state. -/
theorem c10_args_before_checks :
    (∀ fuel calleeE argEs st st1 cv fl st2 vs,
       evalExpr fuel calleeE st = (st1, .ok cv fl) →
       evalArgs fuel argEs st1 = (st2, .oks vs) →
       (∀ g, cv ≠ .function g) →
       evalExpr (fuel + 1) (.call calleeE argEs) st
         = (st2, .err (.newRuntime "Can only call functions.")))
    ∧ (∀ fuel calleeE argEs st st1 g fl st2 vs,
       evalExpr fuel calleeE st = (st1, .ok (.function g) fl) →
       evalArgs fuel argEs st1 = (st2, .oks vs) →
       vs.length ≠ arity g →
       evalExpr (fuel + 1) (.call calleeE argEs) st
         = (st2, .err (.newRuntime ("Expected " ++ toString (arity g) ++ " arguments but got "
             ++ toString vs.length ++ ".")))) := by
  constructor
  · intro fuel calleeE argEs st st1 cv fl st2 vs h1 h2 hcv
    simp only [evalExpr, bindVal, h1, h2]
  · intro fuel calleeE argEs st st1 g fl st2 vs h1 h2 hne
    simp only [evalExpr, bindVal, h1, h2]
    simp [hne]

/-- Instance of `c10_args_before_checks`: calling the number 7 with the
side-effecting argument `x = 5` fails with "Can only call functions."
but leaves `x` mutated to 5; calling the zero-arity clock native with
that argument fails the arity check, again with the side effect
applied. -/
theorem c10_args_before_checks_witness :
    evalExpr 6 (.call (.literal (.number 7)) [.assign "x" (.literal (.number 5))]) stC10
      = (stC10x5, .err (.newRuntime "Can only call functions."))
    ∧ evalExpr 6 (.call (.variable "clock") [.assign "x" (.literal (.number 5))]) stC10
      = (stC10x5, .err (.newRuntime "Expected 0 arguments but got 1.")) :=
  ⟨c10_args_before_checks.1 5 (.literal (.number 7)) [.assign "x" (.literal (.number 5))]
      stC10 stC10 (.number 7) .fNone stC10x5 [.number 5] rfl rfl
      (fun _ h => Object.noConfusion h),
   c10_args_before_checks.2 5 (.variable "clock") [.assign "x" (.literal (.number 5))]
      stC10 stC10 .clock .fNone stC10x5 [.number 5] rfl rfl (by decide)⟩

/-! Section: claim C6 -/

/-- Specification reference for the claim's wording of assignment: the
nearest environment — searching from the given one outward through
enclosing links — that already contains the name (with the same
explicit hop bound as the chain walks). -/
def nearestHolderF (st : State) : Nat → Nat → String → Option Nat
  | 0, _, _ => none
  | fuel + 1, id, name =>
    match getEnv st id with
    | none => none
    | some e =>
      if containsA e.bindings name then some id
      else
        match e.enclosing with
        | some up => nearestHolderF st fuel up name
        | none => none

/-- C6: `assign` mutates exactly the nearest environment in the chain
that already contains the name (the result heap is the input heap with
only that environment's binding replaced); when no environment in the
chain defines the name it fails — `none`, surfaced by `visit_assign` as
the `UndefinedVariable` "during assign." runtime error with the state
unchanged, so no binding is created anywhere; and the `Assign`
expression itself evaluates to the assigned value. -/
theorem c6_assign_semantics :
    (∀ st fuel id name v h e,
       nearestHolderF st fuel id name = some h → getEnv st h = some e →
       envAssignFuel st fuel id name v
         = some (setEnv st h { e with bindings := insertA e.bindings name v }))
    ∧ (∀ st fuel id name v,
       nearestHolderF st fuel id name = none → envAssignFuel st fuel id name v = none)
    ∧ (∀ fuel name valueE st st1 v fl,
        evalExpr fuel valueE st = (st1, .ok v fl) →
        evalExpr (fuel + 1) (.assign name valueE) st
          = match envAssign st1 st1.current name v with
            | some st2 => (st2, .ok v .fNone)
            | none => (st1, .err (.newRuntime
                ("Undefined variable \x27" ++ name ++ "\x27 during assign.")))) := by
  refine ⟨fun st fuel => ?_, fun st fuel => ?_, fun fuel name valueE st st1 v fl h1 => ?_⟩
  · induction fuel with
    | zero => intro id name v h e hn he; simp [nearestHolderF] at hn
    | succ fuel ih =>
      intro id name v h e hn he
      unfold nearestHolderF at hn
      unfold envAssignFuel
      cases hg : getEnv st id with
      | none => simp [hg] at hn
      | some e' =>
        simp only [hg] at hn ⊢
        by_cases hc : containsA e'.bindings name
        · simp only [hc, if_true] at hn ⊢
          obtain rfl : id = h := by injection hn
          rw [hg] at he
          injection he with he'
          subst he'
          rfl
        · simp only [hc, if_false] at hn ⊢
          cases henc : e'.enclosing with
          | none => simp [henc] at hn
          | some up =>
            simp only [henc] at hn ⊢
            exact ih up name v h e hn he
  · induction fuel with
    | zero => intro id name v _; rfl
    | succ fuel ih =>
      intro id name v hn
      unfold nearestHolderF at hn
      unfold envAssignFuel
      cases hg : getEnv st id with
      | none => simp [hg]
      | some e' =>
        simp only [hg] at hn ⊢
        by_cases hc : containsA e'.bindings name
        · simp [hc] at hn
        · simp only [hc, if_false] at hn ⊢
          cases henc : e'.enclosing with
          | none => simp [henc]
          | some up =>
            simp only [henc] at hn ⊢
            exact ih up name v hn
  · simp only [evalExpr, bindVal, h1]

/-- A chain for exercising assignment through an enclosing link: the
global environment binds `y`, the current environment (id 1) binds
nothing. -/
def stC6 : State :=
  { envs := [⟨none, [("y", .number 1)]⟩, ⟨some 0, []⟩]
    current := 1
    output := []
    nextFnId := 0 }

/-- Instance of `c6_assign_semantics`: assigning `y = 9` from the empty
inner environment mutates the global binding (the nearest holder), and
the assignment expression evaluates to 9. -/
theorem c6_assign_semantics_witness :
    envAssignFuel stC6 2 1 "y" (.number 9)
      = some (setEnv stC6 0 ⟨none, insertA [("y", .number 1)] "y" (.number 9)⟩)
    ∧ evalExpr 3 (.assign "y" (.literal (.number 9))) stC6
      = ({ envs := [⟨none, [("y", .number 9)]⟩, ⟨some 0, []⟩]
           current := 1, output := [], nextFnId := 0 }, .ok (.number 9) .fNone) :=
  ⟨c6_assign_semantics.1 stC6 2 1 "y" (.number 9) 0 ⟨none, [("y", .number 1)]⟩ rfl rfl,
   c6_assign_semantics.2.2 2 "y" (.literal (.number 9)) stC6 stC6 (.number 9) .fNone rfl⟩

/-! Section: claim C8 -/

/-- The program `var x = 1; return x = 2;` — a top-level return whose
value expression has an observable side effect. -/
def c8Prog : List Stmt :=
  [.var "x" (.literal (.number 1)),
   .returnStmt (.assign "x" (.literal (.number 2)))]

/-- C8 counterexample: the evaluator does play a part in rejecting a
top-level `return`, and evaluation does occur before the rejection —
running `var x = 1; return x = 2;` through `Interpreter::interpret`
(the pipeline `main.rs` actually runs: scanner → parser → interpreter,
with no resolver pass) evaluates the return's value expression, leaving
`x = 2` in the global environment, and then raises the *runtime* error
"Cannot return from top-level code.". -/
theorem c8_counterexample :
    (interpretProgram c8Prog 10).2
      = .errT (.newRuntime "Cannot return from top-level code.")
    ∧ envGet (interpretProgram c8Prog 10).1 0 "x" = some (.number 2) :=
  ⟨rfl, rfl⟩

/-- C8 (amended): the resolver does flag a top-level return as a static
parse-kind error ("Cannot return from top level code."), whenever the
resolver is run; but rejection is not exclusively static — the evaluator
independently rejects any `Return` signal surfacing at the top level
with a runtime error, after the return's value expression has been
evaluated (and the shipped `main.rs` driver runs no resolver at all, so
there the evaluator's check is the only rejection). -/
theorem c8_top_level_return_amended :
    (∀ rs fuel, rs.currentFunction = .NONE →
      (resolveStmt (fuel + 1) (.returnStmt (.literal (.str "x"))) rs).errors
        = rs.errors ++ [LoxError.newParse "Cannot return from top level code."])
    ∧ (∀ fuel s rest st st' o v,
        execStmt fuel s st = (st', .ok o (.ret v)) →
        interpretStmts (fuel + 1) (s :: rest) st
          = (st', .errT (.newRuntime "Cannot return from top-level code."))) := by
  constructor
  · intro rs fuel h
    cases fuel <;> simp [resolveStmt, resolveExpr, pushErr, h]
  · intro fuel s rest st st' o v h1
    simp only [interpretStmts, h1]

/-- Instance of `c8_top_level_return_amended`: from the initial resolver
and interpreter states, `return "x";` is flagged by the resolver and
rejected at runtime by the interpreter. -/
theorem c8_top_level_return_amended_witness :
    (resolveStmt 4 (.returnStmt (.literal (.str "x"))) initRState).errors
      = initRState.errors ++ [LoxError.newParse "Cannot return from top level code."]
    ∧ interpretStmts 6 [.returnStmt (.literal (.str "x"))] initState
      = (initState, .errT (.newRuntime "Cannot return from top-level code.")) :=
  ⟨c8_top_level_return_amended.1 initRState 3 rfl,
   c8_top_level_return_amended.2 5 (.returnStmt (.literal (.str "x"))) [] initState
     initState .nil (.str "x") rfl⟩

/-! Section: claim C9 -/

/-- C9: resolving `var a = a;` produces the self-reference resolution
error from *every* resolver state — in particular at the top level
(`scopes = []`), where `visit_var` wraps a synthetic scope around the
declaration so the same per-scope `Declared`-read check fires, and
inside any scope stack, where `declare` marks `a` as `Declared` before
the initializer is resolved.  The error list only grows, by a list
containing the self-reference error. -/
theorem c9_var_self_reference :
    ∀ rs fuel,
      ∃ l, (resolveStmt (fuel + 2) (.var "a" (.variable "a")) rs).errors = rs.errors ++ l
        ∧ LoxError.newParse "Can\x27t read local variable in its own initializer." ∈ l := by
  intro rs fuel
  cases hs : rs.scopes with
  | nil =>
    refine ⟨[LoxError.newParse "Can\x27t read local variable in its own initializer.",
             LoxError.newWarning "Variable \x27a\x27 is defined but never used"], ?_, by simp⟩
    simp [resolveStmt, resolveExpr, declare, defineR, beginScope, endScope, pushErr,
      resolveLocal, resolveLocalDist, markUsed, warningsOf, containsA, lookupA, insertA, hs]
  | cons scope rest =>
    by_cases hc : containsA scope "a" = true
    · refine ⟨[LoxError.newInternal "Already a variable with this name in this scope",
               LoxError.newParse "Can\x27t read local variable in its own initializer."],
        ?_, by simp⟩
      simp [resolveStmt, resolveExpr, declare, defineR, beginScope, endScope, pushErr,
        resolveLocal, resolveLocalDist, markUsed, containsA_insertA_self, lookupA_insertA_self,
        hs, hc]
    · refine ⟨[LoxError.newParse "Can\x27t read local variable in its own initializer."],
        ?_, by simp⟩
      simp [resolveStmt, resolveExpr, declare, defineR, beginScope, endScope, pushErr,
        resolveLocal, resolveLocalDist, markUsed, containsA_insertA_self, lookupA_insertA_self,
        hs, hc]

/-! Section: claim C2 -/

/-- Specification reference for the claim's parameter binding: bind each
parameter positionally by name into the fresh environment. -/
def specBind (st : State) (envId : Nat) : List String → List Object → State
  | [], _ => st
  | _ :: _, [] => st
  | p :: ps, a :: rest => specBind (envDefine st envId p a) envId ps rest

/-- Specification reference for the claim's body execution: run the
body's statements in order; if a `Return` signal surfaces, its value is
the call's result; if execution completes with no `Return` signal, the
result is `Nil`. -/
def specBodyRun : Nat → List Stmt → State → State × Res
  | 0, _, st => (st, .oof)
  | _ + 1, [], st => (st, .ok .nil .fNone)
  | fuel + 1, s :: rest, st =>
    match execStmt fuel s st with
    | (st, .ok _ (.ret v)) => (st, .ok v .fNone)
    | (st, .ok _ .fNone) => specBodyRun fuel rest st
    | other => other

/-- Specification reference for the claim's call protocol, assembled
from the spec's words: a fresh environment enclosing the function's
*captured closure* (never the caller's current environment), positional
parameter binding, the body run, and restoration of the caller's
current environment. -/
def callSpec (fuel : Nat) (params : List String) (bodyStmts : List Stmt) (closure : Nat)
    (args : List Object) (st : State) : State × Res :=
  let alloc := newEnclosed st closure
  let stIn := { specBind alloc.1 alloc.2 params args with current := alloc.2 }
  let run :=
    match fuel with
    | 0 => (stIn, Res.oof)
    | f + 1 => specBodyRun f bodyStmts stIn
  ({ run.1 with current := st.current }, run.2)

/-- The evaluator's fold-based binding agrees with the spec's recursive
binding. -/
theorem bindParams_eq_specBind (params : List String) (args : List Object)
    (st : State) (envId : Nat) :
    bindParams st envId params args = specBind st envId params args := by
  induction params generalizing args st with
  | nil => cases args <;> rfl
  | cons p ps ih =>
    cases args with
    | nil => rfl
    | cons a rest =>
      show bindParams (envDefine st envId p a) envId ps rest = _
      rw [ih]
      rfl

/-- The call body loop agrees with the spec's body run. -/
theorem execBodyStmts_eq_specBodyRun (fuel : Nat) (ss : List Stmt) (st : State) :
    execBodyStmts fuel ss st = specBodyRun fuel ss st := by
  induction fuel generalizing ss st with
  | zero => rfl
  | succ fuel ih =>
    cases ss with
    | nil => rfl
    | cons s rest =>
      show (match execStmt fuel s st with
            | (st, .ok _ (.ret v)) => (st, Res.ok v .fNone)
            | (st, .ok _ .fNone) => execBodyStmts fuel rest st
            | other => other) = _
      unfold specBodyRun
      rcases h : execStmt fuel s st with ⟨st', r⟩
      cases r with
      | ok v flow =>
        cases flow with
        | fNone => simpa using ih rest st'
        | ret v' => rfl
      | err e => rfl
      | oof => rfl
      | panicR => rfl

/-- Spec binding never moves the current-environment cursor. -/
theorem specBind_current (params : List String) (args : List Object)
    (st : State) (envId : Nat) :
    (specBind st envId params args).current = st.current := by
  rw [← bindParams_eq_specBind]
  exact bindParams_current _ _ _ _

/-- Allocating a child environment never moves the current-environment
cursor. -/
theorem newEnclosed_current (st : State) (c : Nat) :
    (newEnclosed st c).1.current = st.current := rfl

/-- The closure-semantics program
`var x = 1; fun f() { print x; } { var x = 2; f(); }`:
under lexical scoping the call made inside the block must see the
global `x = 1` captured by `f`, not the caller's shadowing `x = 2`. -/
def closureProg : List Stmt :=
  [.var "x" (.literal (.number 1)),
   .function "f" [] (.block [.print (.variable "x")]),
   .block [.var "x" (.literal (.number 2)), .expression (.call (.variable "f") [])]]

/-- C2: invoking a user-declared function creates a fresh environment
enclosing the function's captured closure environment (never the
caller's current environment), binds each parameter positionally by
name, executes the body's statements in order, and returns the value of
a surfacing `Return` signal, or `Nil` when none surfaces — i.e.
`LoxFunction::call` coincides with the call protocol assembled from the
spec's words whenever the arity matches; and concretely, a call made
from inside a block that shadows `x` still reads the captured global
`x = 1`, printing 1. -/
theorem c2_call_protocol :
    (∀ fuel id name params ss closure args st,
      params.length = args.length →
      callFn (fuel + 1) (.lox id name params (.block ss) closure) args st
        = callSpec fuel params ss closure args st)
    ∧ (interpretProgram closureProg 40).1.output = [.number 1] := by
  constructor
  · intro fuel id name params ss closure args st h
    unfold callFn callSpec
    rw [if_pos (Nat.le_of_eq h)]
    cases fuel with
    | zero =>
      simp only [execBody, bindParams_eq_specBind, specBind_current, newEnclosed_current]
    | succ f =>
      simp only [execBody, execBodyStmts_eq_specBodyRun, bindParams_eq_specBind,
        specBind_current, newEnclosed_current]
  · rfl

/-- Instance of `c2_call_protocol`: calling the identity-style function
`fun f(n) { return n; }` on 7 follows the spec protocol and returns
7. -/
theorem c2_call_protocol_witness :
    callFn 10 (.lox 0 "f" ["n"] (.block [.returnStmt (.variable "n")]) 0) [.number 7] initState
      = callSpec 9 ["n"] [.returnStmt (.variable "n")] 0 [.number 7] initState
    ∧ (callFn 10 (.lox 0 "f" ["n"] (.block [.returnStmt (.variable "n")]) 0)
        [.number 7] initState).2 = .ok (.number 7) .fNone :=
  ⟨c2_call_protocol.1 9 0 "f" ["n"] [.returnStmt (.variable "n")] 0 [.number 7] initState rfl,
   rfl⟩

end Rlox
